import Mathlib

/-!
Verification of the loss-function pipeline in `losses.py`.

An image batch is a 4-axis array (batch, channel, height, width) of real
values. We embed it as a shape quadruple together with a total data
function; every aggregate (sum, mean) only reads in-range indices, so the
out-of-range values of the data function are irrelevant.

Python floats are modelled as real numbers (idealised arithmetic); the
float literals of the source (`1e-3`, `0.01`, `0.7`) become the rationals
`1/1000`, `1/100`, `7/10` coerced into `ℝ`.

Fallible tensor operations (broadcasting failures, missing attributes,
mis-arity unpacking) are embedded with `Except TorchError`.
-/

noncomputable section

/-- A 4-axis tensor (batch, channel, height, width) of reals. -/
structure Tensor4 where
  b : ℕ
  c : ℕ
  h : ℕ
  w : ℕ
  data : ℕ → ℕ → ℕ → ℕ → ℝ

namespace Tensor4

/-- Number of elements, as in `torch.numel`. -/
def numel (t : Tensor4) : ℕ := t.b * t.c * t.h * t.w

/-- Sum of all (in-range) elements. -/
def total (t : Tensor4) : ℝ :=
  ∑ i ∈ Finset.range t.b, ∑ j ∈ Finset.range t.c,
    ∑ a ∈ Finset.range t.h, ∑ l ∈ Finset.range t.w, t.data i j a l

/-- `torch.mean` over all elements. -/
def mean (t : Tensor4) : ℝ := t.total / (t.numel : ℝ)

/-- `torch.roll(t, s, dims=2)`: cyclic shift along the height axis,
`out[a] = in[(a - s) mod h]`. -/
def rollH (t : Tensor4) (s : ℕ) : Tensor4 :=
  ⟨t.b, t.c, t.h, t.w, fun i j a l => t.data i j ((a + (t.h - s % t.h)) % t.h) l⟩

/-- `torch.roll(t, s, dims=3)`: cyclic shift along the width axis. -/
def rollW (t : Tensor4) (s : ℕ) : Tensor4 :=
  ⟨t.b, t.c, t.h, t.w, fun i j a l => t.data i j a ((l + (t.w - s % t.w)) % t.w)⟩

/-- Multiplication of every element by a scalar (`s * t` in torch). -/
def smul (s : ℝ) (t : Tensor4) : Tensor4 :=
  ⟨t.b, t.c, t.h, t.w, fun i j a l => s * t.data i j a l⟩

/-- The constant batch of a given shape and value. -/
def const (b c h w : ℕ) (v : ℝ) : Tensor4 := ⟨b, c, h, w, fun _ _ _ _ => v⟩

end Tensor4

/-- Two batches have identical shape. -/
def sameShape (x y : Tensor4) : Prop :=
  x.b = y.b ∧ x.c = y.c ∧ x.h = y.h ∧ x.w = y.w

instance (x y : Tensor4) : Decidable (sameShape x y) :=
  inferInstanceAs (Decidable (x.b = y.b ∧ x.c = y.c ∧ x.h = y.h ∧ x.w = y.w))

/-- The error modes of the embedded torch calls: attribute lookup on a
name that does not exist (`torch.spiit`, `self.pool`), unpacking or split
arity mismatch, and non-broadcastable operand shapes. -/
inductive TorchError
  | attributeError
  | valueError
  | broadcastError
deriving DecidableEq

/-- Broadcasting of one axis: the sizes must agree or one of them be 1. -/
def bcastDim (a b : ℕ) : Option ℕ :=
  if a = b then some a else if a = 1 then some b else if b = 1 then some a else none

/-- Index into a possibly-broadcast source axis: a size-1 axis is read at 0. -/
def bidx (srcDim idx : ℕ) : ℕ := if srcDim = 1 then 0 else idx

/-- `x - y` with torch broadcasting semantics: succeeds exactly when every
axis pair broadcasts, and reads each operand through `bidx`. -/
def torchSub (x y : Tensor4) : Except TorchError Tensor4 :=
  match bcastDim x.b y.b, bcastDim x.c y.c, bcastDim x.h y.h, bcastDim x.w y.w with
  | some b, some c, some h, some w =>
      .ok ⟨b, c, h, w, fun i j a l =>
        x.data (bidx x.b i) (bidx x.c j) (bidx x.h a) (bidx x.w l)
          - y.data (bidx y.b i) (bidx y.c j) (bidx y.h a) (bidx y.w l)⟩
  | _, _, _, _ => .error .broadcastError

/-- The shapes of `x` and `y` broadcast against each other. -/
def broadcastable (x y : Tensor4) : Prop :=
  (bcastDim x.b y.b).isSome = true ∧ (bcastDim x.c y.c).isSome = true ∧
    (bcastDim x.h y.h).isSome = true ∧ (bcastDim x.w y.w).isSome = true

instance (x y : Tensor4) : Decidable (broadcastable x y) :=
  inferInstanceAs (Decidable ((bcastDim x.b y.b).isSome = true ∧ (bcastDim x.c y.c).isSome = true ∧
    (bcastDim x.h y.h).isSome = true ∧ (bcastDim x.w y.w).isSome = true))

/-- Whether an `Except` result is a success. -/
def isOkE {ε α : Type} : Except ε α → Bool
  | .ok _ => true
  | .error _ => false

/-- `CharbonnierLoss.forward` (losses.py lines 51-55): the module state
`self.eps` (default `1e-3`) is the explicit first argument.
`diff = x - y`, then `mean(sqrt(diff*diff + eps*eps))`. -/
def CharbonnierLoss.forward (eps : ℝ) (x y : Tensor4) : Except TorchError ℝ :=
  (torchSub x y).map fun d =>
    Tensor4.mean ⟨d.b, d.c, d.h, d.w, fun i j a l =>
      Real.sqrt (d.data i j a l * d.data i j a l + eps * eps)⟩

/-- The Charbonnier value for same-shape operands, written with direct
(unbroadcast) indexing. -/
def charbExact (eps : ℝ) (x y : Tensor4) : ℝ :=
  Tensor4.mean ⟨x.b, x.c, x.h, x.w, fun i j a l =>
    Real.sqrt ((x.data i j a l - y.data i j a l) * (x.data i j a l - y.data i j a l)
      + eps * eps)⟩

/-- The diagnostic record `MyLoss.forward` prints when the cadence fires:
the current Charbonnier sub-loss and similarity sub-loss. -/
structure DiagRecord where
  l1_loss : ℝ
  ssim_loss : ℝ

/-- `MyLoss.forward` (losses.py lines 305-326). The structural-similarity
module is an external library primitive (pytorch_msssim, not part of this
repository); modelled from the spec as an opaque provided capability
`ssim`, passed as a parameter. `self.l1_module` is `CharbonnierLoss()`
with the default ε = 1e-3. The `print` side effect is modelled as the
optional second component of the result: `some` record exactly when the
cadence `epoch % 3 == 1` fires. -/
def MyLoss.forward (ssim : Tensor4 → Tensor4 → ℝ) (x y : Tensor4) (epoch : ℕ) :
    Except TorchError (ℝ × Option DiagRecord) :=
  (CharbonnierLoss.forward (1/1000) x y).map fun l1_loss =>
    (l1_loss + (1/100) * (1 - ssim x y),
      if epoch % 3 = 1 then some ⟨l1_loss, 1 - ssim x y⟩ else none)

/-- A trivial stand-in for the external structural-similarity primitive,
used only to instantiate witnesses. -/
def ssimOne : Tensor4 → Tensor4 → ℝ := fun _ _ => 1

/-- `TVLoss.tensor_size(x[:, :, 1:, :])` (losses.py line 33). -/
def count_h (x : Tensor4) : ℕ := x.c * (x.h - 1) * x.w

/-- `TVLoss.tensor_size(x[:, :, :, 1:])` (losses.py line 34). -/
def count_w (x : Tensor4) : ℕ := x.c * x.h * (x.w - 1)

/-- `h_tv` (losses.py line 35): sum of squared vertical finite differences. -/
def h_tv (x : Tensor4) : ℝ :=
  ∑ i ∈ Finset.range x.b, ∑ j ∈ Finset.range x.c, ∑ a ∈ Finset.range (x.h - 1),
    ∑ l ∈ Finset.range x.w, (x.data i j (a + 1) l - x.data i j a l)^2

/-- `w_tv` (losses.py line 36): sum of squared horizontal finite differences. -/
def w_tv (x : Tensor4) : ℝ :=
  ∑ i ∈ Finset.range x.b, ∑ j ∈ Finset.range x.c, ∑ a ∈ Finset.range x.h,
    ∑ l ∈ Finset.range (x.w - 1), (x.data i j a (l + 1) - x.data i j a l)^2

/-- `TVLoss.forward` (losses.py lines 29-37): the module state
`self.tv_loss_weight` (default 1) is the explicit first argument. Returns
`tv_loss_weight * 2 * (h_tv / count_h + w_tv / count_w) / batch_size`. -/
def TVLoss.forward (tv_loss_weight : ℝ) (x : Tensor4) : ℝ :=
  tv_loss_weight * 2 * (h_tv x / (count_h x : ℝ) + w_tv x / (count_w x : ℝ)) / (x.b : ℝ)

/-- The value the specification's sentence ascribes to `TVLoss.forward`:
`tv_loss_weight * (h_tv / count_h + w_tv / count_w) / batch_size`,
without the factor 2 (refinement target, stated from the spec's words). -/
def tvClaimedValue (tv_loss_weight : ℝ) (x : Tensor4) : ℝ :=
  tv_loss_weight * (h_tv x / (count_h x : ℝ) + w_tv x / (count_w x : ℝ)) / (x.b : ℝ)

/-- A 1×1×2×2 batch whose columns are 0 and 1. -/
def tvGrid : Tensor4 := ⟨1, 1, 2, 2, fun _ _ _ l => if l = 0 then 0 else 1⟩

/-- `torch.mean(x, [2, 3], keepdim=True)` read at batch `i`, channel `j`
(losses.py line 186). -/
def spatialMean (x : Tensor4) (i j : ℕ) : ℝ :=
  (∑ a ∈ Finset.range x.h, ∑ l ∈ Finset.range x.w, x.data i j a l) / ((x.h * x.w : ℕ) : ℝ)

/-- The per-pixel value `k` of `ColorLoss.forward` (losses.py line 191):
`sqrt(Dr² + Db² + Dg²)` where `Dr = r - mr` etc., channels split along
axis 1 and `m*` the per-image spatial channel means. -/
def colorK (x : Tensor4) (i a l : ℕ) : ℝ :=
  Real.sqrt ((x.data i 0 a l - spatialMean x i 0)^2 + (x.data i 2 a l - spatialMean x i 2)^2
    + (x.data i 1 a l - spatialMean x i 1)^2)

/-- `ColorLoss.forward` (losses.py lines 181-196): unpacking
`torch.split(x, 1, dim=1)` into `r, g, b` requires exactly 3 channels
(a ValueError otherwise); the result is the mean of the per-pixel `k`
map, whose shape is (b, 1, h, w). -/
def ColorLoss.forward (x : Tensor4) : Except TorchError ℝ :=
  if x.c = 3 then
    .ok (Tensor4.mean ⟨x.b, 1, x.h, x.w, fun i _ a l => colorK x i a l⟩)
  else .error .valueError

/-- A 1×3×1×2 batch whose red channel is (0, 2) and whose green and blue
channels are 0: its grey-world color loss is 1, and after doubling the
brightness it is 2. -/
def colorImg : Tensor4 :=
  ⟨1, 3, 1, 2, fun _ j _ l => if j = 0 then (if l = 0 then 0 else 2) else 0⟩

/-- The height-direction aggregate `x_` of `UnionLoss.forward` (losses.py
lines 233-248): the sum over shift distances 2, 4, 8, 16, 32, 64, 128 of
the absolute difference between the batch and its cyclic roll along the
height axis. -/
def unionDirH (x : Tensor4) : Tensor4 :=
  ⟨x.b, x.c, x.h, x.w, fun i j a l =>
    |(x.rollH 2).data i j a l - x.data i j a l| + |(x.rollH 4).data i j a l - x.data i j a l|
      + |(x.rollH 8).data i j a l - x.data i j a l| + |(x.rollH 16).data i j a l - x.data i j a l|
      + |(x.rollH 32).data i j a l - x.data i j a l| + |(x.rollH 64).data i j a l - x.data i j a l|
      + |(x.rollH 128).data i j a l - x.data i j a l|⟩

/-- The width-direction aggregate `x__` of `UnionLoss.forward` (losses.py
lines 251-265), with the same shift distances along the width axis. -/
def unionDirW (x : Tensor4) : Tensor4 :=
  ⟨x.b, x.c, x.h, x.w, fun i j a l =>
    |(x.rollW 2).data i j a l - x.data i j a l| + |(x.rollW 4).data i j a l - x.data i j a l|
      + |(x.rollW 8).data i j a l - x.data i j a l| + |(x.rollW 16).data i j a l - x.data i j a l|
      + |(x.rollW 32).data i j a l - x.data i j a l| + |(x.rollW 64).data i j a l - x.data i j a l|
      + |(x.rollW 128).data i j a l - x.data i j a l|⟩

/-- `UnionLoss.forward` (losses.py lines 230-270):
`mean(abs(x_ - y_)/7 + abs(x__ - y__)/7) / 2`, the two inner subtractions
carrying torch broadcasting semantics. -/
def UnionLoss.forward (x y : Tensor4) : Except TorchError ℝ :=
  match torchSub (unionDirH x) (unionDirH y), torchSub (unionDirW x) (unionDirW y) with
  | .ok dh, .ok dw =>
      .ok (Tensor4.mean ⟨dh.b, dh.c, dh.h, dh.w, fun i j a l =>
        |dh.data i j a l| / 7 + |dw.data i j a l| / 7⟩ / 2)
  | _, _ => .error .broadcastError

/-- `torch.mean(x, 1, keepdim=True)` (losses.py line 170). -/
def channelMean (x : Tensor4) : Tensor4 :=
  ⟨x.b, 1, x.h, x.w, fun i _ a l => (∑ j ∈ Finset.range x.c, x.data i j a l) / (x.c : ℝ)⟩

/-- The state of the `ExposureLoss` module: the stored `patch_size` and
`mean_val`, and the `pool` attribute, `none` when never assigned. -/
structure ExposureLoss where
  patch_size : ℕ
  mean_val : ℝ
  pool : Option (Tensor4 → Tensor4)

/-- `ExposureLoss.__init__` (losses.py lines 163-166): stores `patch_size`
and `mean_val` but never assigns `self.pool`. -/
def ExposureLoss.init (p : ℕ) (m : ℝ) : ExposureLoss := ⟨p, m, none⟩

/-- `ExposureLoss.forward` (losses.py lines 168-174): channel-average the
batch, apply `self.pool`, and return the mean squared deviation of the
pooled map from `mean_val`; `torch.mean` of the resulting scalar is the
scalar itself. Reading `self.pool` raises AttributeError when the
attribute was never set. -/
def ExposureLoss.forward (self : ExposureLoss) (x : Tensor4) : Except TorchError ℝ :=
  match self.pool with
  | none => .error .attributeError
  | some pl =>
      let m := pl (channelMean x)
      .ok (Tensor4.mean ⟨m.b, m.c, m.h, m.w, fun i j a l => (m.data i j a l - self.mean_val)^2⟩)

/-- Modelled from the spec: "Requires an average-pooling primitive with
kernel and stride equal to patch_size" — the pooling operation the code
reads as `self.pool` but never initialises. Tile (a, l) of the output
averages the patch_size × patch_size block starting at (a·p, l·p). -/
def avgPool2d (p : ℕ) (t : Tensor4) : Tensor4 :=
  ⟨t.b, t.c, t.h / p, t.w / p, fun i j a l =>
    (∑ u ∈ Finset.range p, ∑ v ∈ Finset.range p, t.data i j (a * p + u) (l * p + v))
      / ((p * p : ℕ) : ℝ)⟩

/-- `ColorLoss1.forward` (losses.py lines 202-225). Unpacking
`torch.split(x, 1, dim=1)` into `r1, g1, b1` requires exactly 3 channels
(a ValueError otherwise); the very next line (207) calls `torch.spiit` —
a misspelling of `torch.split` that is not an attribute of the torch
module — so every call fails with an AttributeError before any cosine is
computed. (The later `torch.arcos` on line 224 does not exist either, and
no clamp of the arccos argument is present anywhere in the body.) -/
def ColorLoss1.forward (x : Tensor4) (_y : Tensor4) : Except TorchError ℝ :=
  if x.c = 3 then .error .attributeError else .error .valueError

/-- The per-pixel cosine similarity `cos = k1 / (k2 * k3)` between the RGB
vectors of two batches (losses.py lines 216-221). -/
def cosSim (x y : Tensor4) (i a l : ℕ) : ℝ :=
  (x.data i 0 a l * y.data i 0 a l + x.data i 1 a l * y.data i 1 a l
    + x.data i 2 a l * y.data i 2 a l) /
  (Real.sqrt ((x.data i 0 a l)^2 + (x.data i 1 a l)^2 + (x.data i 2 a l)^2)
    * Real.sqrt ((y.data i 0 a l)^2 + (y.data i 1 a l)^2 + (y.data i 2 a l)^2))

/-- Modelled from the spec: Variant B two-image colour consistency — the
mean per-pixel arccos of the cosine similarity between RGB vectors — with
the clamp of the arccos argument to [-1, 1] that the spec requires; the
code never reaches this computation because its split and arccos calls
are misspelled. -/
def colorLoss1Intended (x y : Tensor4) : Except TorchError ℝ :=
  if x.c = 3 then
    .ok (Tensor4.mean ⟨x.b, 1, x.h, x.w, fun i _ a l =>
      Real.arccos (max (-1) (min 1 (cosSim x y i a l)))⟩)
  else .error .valueError

lemma bidx_of_lt {d i : ℕ} (h : i < d) : bidx d i = i := by
  unfold bidx
  split <;> omega

lemma charb_forward_sameShape (eps : ℝ) (x y : Tensor4) (hs : sameShape x y) :
    CharbonnierLoss.forward eps x y = .ok (charbExact eps x y) := by
  obtain ⟨hb, hc, hh, hw⟩ := hs
  unfold CharbonnierLoss.forward torchSub
  rw [← hb, ← hc, ← hh, ← hw]
  simp only [bcastDim, if_pos rfl, Except.map]
  refine congrArg Except.ok ?_
  unfold charbExact Tensor4.mean Tensor4.total Tensor4.numel
  dsimp only
  refine congrArg (· / _) ?_
  refine Finset.sum_congr rfl fun i hi => ?_
  refine Finset.sum_congr rfl fun j hj => ?_
  refine Finset.sum_congr rfl fun a ha => ?_
  refine Finset.sum_congr rfl fun l hl => ?_
  rw [bidx_of_lt (Finset.mem_range.mp hi), bidx_of_lt (Finset.mem_range.mp hj),
    bidx_of_lt (Finset.mem_range.mp ha), bidx_of_lt (Finset.mem_range.mp hl)]

lemma charbExact_nonneg (eps : ℝ) (x y : Tensor4) : 0 ≤ charbExact eps x y := by
  unfold charbExact Tensor4.mean Tensor4.total
  dsimp only
  refine div_nonneg ?_ (Nat.cast_nonneg _)
  refine Finset.sum_nonneg fun i _ => ?_
  refine Finset.sum_nonneg fun j _ => ?_
  refine Finset.sum_nonneg fun a _ => ?_
  exact Finset.sum_nonneg fun l _ => Real.sqrt_nonneg _

lemma eps_le_sqrt_charb {eps : ℝ} (he : 0 ≤ eps) (v : ℝ) :
    eps ≤ Real.sqrt (v * v + eps * eps) := by
  calc eps = Real.sqrt (eps * eps) := (Real.sqrt_mul_self he).symm
    _ ≤ Real.sqrt (v * v + eps * eps) :=
        Real.sqrt_le_sqrt (by nlinarith [mul_self_nonneg v])

lemma mul_le_sum_range {n : ℕ} {e : ℝ} {f : ℕ → ℝ} (hf : ∀ i, i < n → e ≤ f i) :
    (n : ℝ) * e ≤ ∑ i ∈ Finset.range n, f i := by
  calc (n : ℝ) * e = ∑ _i ∈ Finset.range n, e := by
        rw [Finset.sum_const, Finset.card_range, nsmul_eq_mul]
    _ ≤ ∑ i ∈ Finset.range n, f i :=
        Finset.sum_le_sum fun i hi => hf i (Finset.mem_range.mp hi)

lemma eps_le_charbExact (eps : ℝ) (x y : Tensor4) (he : 0 ≤ eps) (hn : 0 < x.numel) :
    eps ≤ charbExact eps x y := by
  have hn2 : 0 < x.b * x.c * x.h * x.w := hn
  unfold charbExact Tensor4.mean Tensor4.total Tensor4.numel
  dsimp only
  rw [le_div_iff₀ (by exact_mod_cast hn2)]
  have top : (x.b : ℝ) * ((x.c : ℝ) * ((x.h : ℝ) * ((x.w : ℝ) * eps))) ≤
      ∑ i ∈ Finset.range x.b, ∑ j ∈ Finset.range x.c, ∑ a ∈ Finset.range x.h,
        ∑ l ∈ Finset.range x.w,
          Real.sqrt ((x.data i j a l - y.data i j a l) * (x.data i j a l - y.data i j a l)
            + eps * eps) := by
    refine mul_le_sum_range fun i _ => ?_
    refine mul_le_sum_range fun j _ => ?_
    refine mul_le_sum_range fun a _ => ?_
    exact mul_le_sum_range fun l _ => eps_le_sqrt_charb he _
  calc eps * ((x.b * x.c * x.h * x.w : ℕ) : ℝ)
      = (x.b : ℝ) * ((x.c : ℝ) * ((x.h : ℝ) * ((x.w : ℝ) * eps))) := by push_cast; ring
    _ ≤ _ := top

lemma charbExact_self (eps : ℝ) (x : Tensor4) (he : 0 ≤ eps) (hn : 0 < x.numel) :
    charbExact eps x x = eps := by
  have hd : ((x.b * x.c * x.h * x.w : ℕ) : ℝ) ≠ 0 := by
    exact_mod_cast Nat.pos_iff_ne_zero.mp hn
  unfold charbExact Tensor4.mean Tensor4.total Tensor4.numel
  dsimp only
  simp only [sub_self, zero_mul, zero_add, Real.sqrt_mul_self he, Finset.sum_const,
    Finset.card_range, nsmul_eq_mul]
  rw [div_eq_iff hd]
  push_cast
  ring

/-- C10: for every ε > 0 and same-shape nonempty batches, the Charbonnier
forward pass returns a scalar that is at least ε, and on identical inputs
it returns exactly ε (not 0). -/
theorem charbonnier_ge_eps (eps : ℝ) (x y : Tensor4) (he : 0 < eps)
    (hs : sameShape x y) (hn : 0 < x.numel) :
    CharbonnierLoss.forward eps x y = .ok (charbExact eps x y) ∧
      eps ≤ charbExact eps x y ∧ charbExact eps x x = eps := by
  exact ⟨charb_forward_sameShape eps x y hs, eps_le_charbExact eps x y he.le hn,
    charbExact_self eps x he.le hn⟩

theorem charbonnier_ge_eps_witness :
    (0 : ℝ) < 2 ∧ sameShape (Tensor4.const 1 1 1 1 5) (Tensor4.const 1 1 1 1 3) ∧
      0 < (Tensor4.const 1 1 1 1 5).numel ∧
      (CharbonnierLoss.forward 2 (Tensor4.const 1 1 1 1 5) (Tensor4.const 1 1 1 1 3)
          = .ok (charbExact 2 (Tensor4.const 1 1 1 1 5) (Tensor4.const 1 1 1 1 3)) ∧
        2 ≤ charbExact 2 (Tensor4.const 1 1 1 1 5) (Tensor4.const 1 1 1 1 3) ∧
        charbExact 2 (Tensor4.const 1 1 1 1 5) (Tensor4.const 1 1 1 1 5) = 2) := by
  refine ⟨by norm_num, by decide, by decide, ?_⟩
  exact charbonnier_ge_eps 2 (Tensor4.const 1 1 1 1 5) (Tensor4.const 1 1 1 1 3)
    (by norm_num) (by decide) (by decide)

/-- C2 counterexample: at the default ε = 1e-3, the Charbonnier loss of a
batch against itself is exactly 1e-3, which is NOT bounded by ε² = 1e-6. -/
theorem charbonnier_self_not_bounded_by_eps_sq :
    CharbonnierLoss.forward (1/1000) (Tensor4.const 1 1 1 1 0) (Tensor4.const 1 1 1 1 0)
        = .ok (1/1000) ∧
      ¬ ((1/1000 : ℝ) ≤ (1/1000) * (1/1000)) := by
  constructor
  · rw [charb_forward_sameShape (1/1000) _ _ (by decide)]
    rw [charbExact_self (1/1000) _ (by norm_num) (by decide)]
  · norm_num

/-- C2 amended: at the default ε = 1e-3, `CharbonnierLoss.forward` on
same-shape nonempty batches is nonnegative, and on identical inputs it
equals ε = 1e-3 itself (approximately 0 at the scale of ε, but not bounded
by ε²). -/
theorem charbonnier_default_nonneg_and_self_eps (x y : Tensor4)
    (hs : sameShape x y) (hn : 0 < x.numel) :
    CharbonnierLoss.forward (1/1000) x y = .ok (charbExact (1/1000) x y) ∧
      0 ≤ charbExact (1/1000) x y ∧ charbExact (1/1000) x x = 1/1000 := by
  exact ⟨charb_forward_sameShape _ x y hs, charbExact_nonneg _ x y,
    charbExact_self _ x (by norm_num) hn⟩

theorem charbonnier_default_nonneg_and_self_eps_witness :
    sameShape (Tensor4.const 1 3 2 2 1) (Tensor4.const 1 3 2 2 0) ∧
      0 < (Tensor4.const 1 3 2 2 1).numel ∧
      (CharbonnierLoss.forward (1/1000) (Tensor4.const 1 3 2 2 1) (Tensor4.const 1 3 2 2 0)
          = .ok (charbExact (1/1000) (Tensor4.const 1 3 2 2 1) (Tensor4.const 1 3 2 2 0)) ∧
        0 ≤ charbExact (1/1000) (Tensor4.const 1 3 2 2 1) (Tensor4.const 1 3 2 2 0) ∧
        charbExact (1/1000) (Tensor4.const 1 3 2 2 1) (Tensor4.const 1 3 2 2 1) = 1/1000) := by
  refine ⟨by decide, by decide, ?_⟩
  exact charbonnier_default_nonneg_and_self_eps (Tensor4.const 1 3 2 2 1)
    (Tensor4.const 1 3 2 2 0) (by decide) (by decide)

/-- C1: on same-shape 3-channel batches, the composite loss returns
`l1 + 0.01 * (1 - ssim)` where `l1` is the Charbonnier loss of `(x, y)`
at the default ε = 1e-3 and `ssim` is the structural-similarity index of
`(x, y)`, for every epoch. -/
theorem myLoss_forward_default_combination (ssim : Tensor4 → Tensor4 → ℝ)
    (x y : Tensor4) (epoch : ℕ) (_h3 : x.c = 3) (hs : sameShape x y) :
    (MyLoss.forward ssim x y epoch).map Prod.fst
      = .ok (charbExact (1/1000) x y + (1/100) * (1 - ssim x y)) := by
  unfold MyLoss.forward
  rw [charb_forward_sameShape _ x y hs]
  rfl

theorem myLoss_forward_default_combination_witness :
    (Tensor4.const 1 3 2 2 0).c = 3 ∧
      sameShape (Tensor4.const 1 3 2 2 0) (Tensor4.const 1 3 2 2 0) ∧
      (MyLoss.forward ssimOne (Tensor4.const 1 3 2 2 0) (Tensor4.const 1 3 2 2 0) 0).map Prod.fst
        = .ok (charbExact (1/1000) (Tensor4.const 1 3 2 2 0) (Tensor4.const 1 3 2 2 0)
            + (1/100) * (1 - ssimOne (Tensor4.const 1 3 2 2 0) (Tensor4.const 1 3 2 2 0))) := by
  refine ⟨rfl, by decide, ?_⟩
  exact myLoss_forward_default_combination ssimOne (Tensor4.const 1 3 2 2 0)
    (Tensor4.const 1 3 2 2 0) 0 rfl (by decide)

/-- C3: the composite loss emits its diagnostic record exactly when
`epoch % 3 == 1`, and the returned scalar is identical for every epoch
value (the emission is pure observability). -/
theorem myLoss_forward_diag_cadence (ssim : Tensor4 → Tensor4 → ℝ)
    (x y : Tensor4) (e f : ℕ) :
    (MyLoss.forward ssim x y e).map Prod.fst = (MyLoss.forward ssim x y f).map Prod.fst ∧
      (MyLoss.forward ssim x y e).map (fun p => (Prod.snd p).isSome)
        = (MyLoss.forward ssim x y e).map (fun _ => decide (e % 3 = 1)) := by
  constructor
  · unfold MyLoss.forward
    rcases CharbonnierLoss.forward (1/1000) x y with a | a <;> rfl
  · unfold MyLoss.forward
    rcases CharbonnierLoss.forward (1/1000) x y with a | a
    · rfl
    · by_cases he : e % 3 = 1 <;> simp [he, Except.map]

/-- C6 counterexample: two batches of different shape — (1,3,2,2) versus
(1,1,2,2) — are silently broadcast by `CharbonnierLoss.forward`, which
returns a scalar instead of failing. -/
theorem charbonnier_broadcasts_silently :
    ¬ sameShape (Tensor4.const 1 3 2 2 1) (Tensor4.const 1 1 2 2 0) ∧
      isOkE (CharbonnierLoss.forward (1/1000)
        (Tensor4.const 1 3 2 2 1) (Tensor4.const 1 1 2 2 0)) = true := by
  exact ⟨by decide, rfl⟩

/-- C6 amended: `CharbonnierLoss.forward` performs no shape check. It
fails (with the backend's broadcast error) exactly when the operand shapes
are not broadcastable; merely unequal but broadcastable shapes are
silently broadcast and a scalar is returned. -/
theorem charbonnier_fails_iff_not_broadcastable (eps : ℝ) (x y : Tensor4) :
    isOkE (CharbonnierLoss.forward eps x y) = true ↔ broadcastable x y := by
  unfold CharbonnierLoss.forward torchSub broadcastable
  cases h1 : bcastDim x.b y.b <;> cases h2 : bcastDim x.c y.c <;>
    cases h3 : bcastDim x.h y.h <;> cases h4 : bcastDim x.w y.w <;>
      simp [isOkE, Except.map]

/-- C9 counterexample: on `tvGrid` the module returns 2 while the claimed
formula gives 1 — the code multiplies the normalized sum by an extra
factor 2 that the claim omits. -/
theorem tvLoss_factor_two_counterexample :
    TVLoss.forward 1 tvGrid = 2 ∧ tvClaimedValue 1 tvGrid = 1 ∧
      TVLoss.forward 1 tvGrid ≠ tvClaimedValue 1 tvGrid := by
  refine ⟨?_, ?_, ?_⟩ <;>
    norm_num [TVLoss.forward, tvClaimedValue, h_tv, w_tv, count_h, count_w, tvGrid,
      Finset.sum_range_succ]

/-- C9 amended: `TVLoss.forward` returns twice the claimed formula, i.e.
`tv_loss_weight * 2 * (h_tv / count_h + w_tv / count_w) / batch_size`. -/
theorem tvLoss_forward_eq_two_mul_claimed (tv_loss_weight : ℝ) (x : Tensor4) :
    TVLoss.forward tv_loss_weight x = 2 * tvClaimedValue tv_loss_weight x := by
  unfold TVLoss.forward tvClaimedValue
  ring

lemma smul_b (s : ℝ) (t : Tensor4) : (Tensor4.smul s t).b = t.b := rfl

lemma smul_c (s : ℝ) (t : Tensor4) : (Tensor4.smul s t).c = t.c := rfl

lemma smul_h (s : ℝ) (t : Tensor4) : (Tensor4.smul s t).h = t.h := rfl

lemma smul_w (s : ℝ) (t : Tensor4) : (Tensor4.smul s t).w = t.w := rfl

lemma spatialMean_smul (s : ℝ) (x : Tensor4) (i j : ℕ) :
    spatialMean (Tensor4.smul s x) i j = s * spatialMean x i j := by
  unfold spatialMean Tensor4.smul
  dsimp only
  rw [← mul_div_assoc]
  refine congrArg (· / _) ?_
  rw [Finset.mul_sum]
  exact Finset.sum_congr rfl fun a _ => (Finset.mul_sum _ _ _).symm

lemma colorK_smul (s : ℝ) (hs : 0 ≤ s) (x : Tensor4) (i a l : ℕ) :
    colorK (Tensor4.smul s x) i a l = s * colorK x i a l := by
  unfold colorK
  simp only [spatialMean_smul]
  dsimp only [Tensor4.smul]
  have hsq : ∀ u v : ℝ, (s * u - s * v)^2 = s^2 * (u - v)^2 := fun u v => by ring
  rw [hsq, hsq, hsq, ← mul_add, ← mul_add, Real.sqrt_mul (sq_nonneg s), Real.sqrt_sq hs]

/-- C8 amended: `ColorLoss.forward` is homogeneous of degree 1 in a
uniform brightness scaling of all channels: scaling the input by s ≥ 0
scales the returned loss by s (so the loss is invariant only when it is
0 or s = 1, not in general). -/
theorem colorLoss_scale_homogeneous (s : ℝ) (x : Tensor4) (hs : 0 ≤ s) :
    ColorLoss.forward (Tensor4.smul s x) = (ColorLoss.forward x).map (fun r => s * r) := by
  unfold ColorLoss.forward
  by_cases h3 : x.c = 3
  · rw [if_pos h3, if_pos (show (Tensor4.smul s x).c = 3 from h3)]
    dsimp only [Except.map]
    refine congrArg Except.ok ?_
    unfold Tensor4.mean Tensor4.total Tensor4.numel
    dsimp only
    simp only [smul_b, smul_c, smul_h, smul_w]
    simp only [colorK_smul s hs]
    rw [← mul_div_assoc]
    refine congrArg (· / _) ?_
    rw [Finset.mul_sum]
    refine Finset.sum_congr rfl fun i _ => ?_
    rw [Finset.mul_sum]
    refine Finset.sum_congr rfl fun j _ => ?_
    rw [Finset.mul_sum]
    refine Finset.sum_congr rfl fun a _ => ?_
    exact (Finset.mul_sum _ _ _).symm
  · rw [if_neg h3, if_neg (show ¬ (Tensor4.smul s x).c = 3 from h3)]
    rfl

lemma sqrt_four : Real.sqrt 4 = 2 := by
  rw [show (4 : ℝ) = 2^2 by norm_num, Real.sqrt_sq (by norm_num)]

/-- C8 counterexample: uniformly doubling the brightness of `colorImg`
changes `ColorLoss.forward` from 1 to 2, so the loss is not invariant
under uniform per-image brightness scaling. -/
theorem colorLoss_not_scale_invariant :
    ColorLoss.forward (Tensor4.smul 2 colorImg) = .ok 2 ∧
      ColorLoss.forward colorImg = .ok 1 ∧
      ColorLoss.forward (Tensor4.smul 2 colorImg) ≠ ColorLoss.forward colorImg := by
  have h1 : ColorLoss.forward colorImg = .ok 1 := by
    norm_num [ColorLoss.forward, Tensor4.mean, Tensor4.total, Tensor4.numel, colorK,
      spatialMean, colorImg, Finset.sum_range_succ, Real.sqrt_one]
  have h2 : ColorLoss.forward (Tensor4.smul 2 colorImg) = .ok 2 := by
    norm_num [ColorLoss.forward, Tensor4.mean, Tensor4.total, Tensor4.numel, colorK,
      spatialMean, colorImg, Tensor4.smul, Finset.sum_range_succ, sqrt_four]
  refine ⟨h2, h1, ?_⟩
  rw [h1, h2]
  intro hcontra
  have : (2 : ℝ) = 1 := Except.ok.inj hcontra
  norm_num at this

theorem colorLoss_scale_homogeneous_witness :
    (0 : ℝ) ≤ 2 ∧
      ColorLoss.forward (Tensor4.smul 2 colorImg)
        = (ColorLoss.forward colorImg).map (fun r => 2 * r) := by
  exact ⟨by norm_num, colorLoss_scale_homogeneous 2 colorImg (by norm_num)⟩

/-- C7: the union/gradient directional-consistency term vanishes on a pair
of identical batches — the two aggregated cyclic-shift gradient maps
coincide, so every absolute difference is 0. -/
theorem unionLoss_self_zero (x : Tensor4) : UnionLoss.forward x x = .ok 0 := by
  unfold UnionLoss.forward torchSub
  simp only [bcastDim, if_pos rfl]
  refine congrArg Except.ok ?_
  unfold Tensor4.mean Tensor4.total
  simp [sub_self]

/-- C4: the module constructed by `ExposureLoss.__init__` — in particular
the default `ExposureLoss(16, 0.7)` built by `MyLoss` — fails with an
AttributeError on every input, because `forward` reads `self.pool` and
`__init__` never sets it; no average-pooled deviation is ever returned. -/
theorem exposureLoss_forward_always_fails (x : Tensor4) :
    ExposureLoss.forward (ExposureLoss.init 16 (7/10)) x = .error .attributeError := rfl

/-- With the pooling attribute restored as the spec prescribes, a batch of
uniform luminance equal to `mean_val` yields an exposure loss of exactly
0, as the claim states for the intended code. -/
theorem exposure_intended_uniform_zero (b c h w p : ℕ) (m : ℝ) (hc : 0 < c) (hp : 0 < p) :
    ExposureLoss.forward ⟨p, m, some (avgPool2d p)⟩ (Tensor4.const b c h w m) = .ok 0 := by
  have hc0 : (c : ℝ) ≠ 0 := Nat.cast_ne_zero.mpr (Nat.pos_iff_ne_zero.mp hc)
  have hp0 : ((p * p : ℕ) : ℝ) ≠ 0 :=
    Nat.cast_ne_zero.mpr (Nat.pos_iff_ne_zero.mp (Nat.mul_pos hp hp))
  unfold ExposureLoss.forward avgPool2d channelMean Tensor4.const
  dsimp only
  refine congrArg Except.ok ?_
  unfold Tensor4.mean Tensor4.total
  dsimp only
  have hpr : (p : ℝ) ≠ 0 := Nat.cast_ne_zero.mpr (Nat.pos_iff_ne_zero.mp hp)
  have hchan : (∑ _j ∈ Finset.range c, m) / (c : ℝ) = m := by
    rw [Finset.sum_const, Finset.card_range, nsmul_eq_mul, mul_div_cancel_left₀ m hc0]
  have hone : (∑ _u ∈ Finset.range p, ∑ _v ∈ Finset.range p,
      (∑ _j ∈ Finset.range c, m) / (c : ℝ)) / ((p * p : ℕ) : ℝ) - m = 0 := by
    simp only [hchan, Finset.sum_const, Finset.card_range, nsmul_eq_mul]
    rw [sub_eq_zero]
    push_cast
    field_simp
    ring
  simp only [hone]
  simp

/-- C5: evaluating `ColorLoss1.forward` at the claim's own scenario — two
identical 1×3×2×2 batches of ones, whose per-pixel RGB vectors are all
nonzero — produces an AttributeError (from the misspelled `torch.spiit`),
not the claimed clamped angular distance of about 0. -/
theorem colorLoss1_forward_crashes :
    ColorLoss1.forward (Tensor4.const 1 3 2 2 1) (Tensor4.const 1 3 2 2 1)
      = .error .attributeError := rfl

/-- With the spec's intended computation (clamped arccos of the cosine
similarity), two identical batches with nonzero per-pixel RGB vectors
yield an angular distance of exactly 0, as the claim states. -/
theorem colorLoss1_intended_self_zero (x : Tensor4) (h3 : x.c = 3)
    (hnz : ∀ i a l, 0 < (x.data i 0 a l)^2 + (x.data i 1 a l)^2 + (x.data i 2 a l)^2) :
    colorLoss1Intended x x = .ok 0 := by
  unfold colorLoss1Intended
  rw [if_pos h3]
  refine congrArg Except.ok ?_
  have hcs : ∀ i a l, cosSim x x i a l = 1 := by
    intro i a l
    unfold cosSim
    rw [Real.mul_self_sqrt (hnz i a l).le,
      div_eq_one_iff_eq (ne_of_gt (hnz i a l))]
    ring
  unfold Tensor4.mean Tensor4.total
  dsimp only
  simp only [hcs]
  norm_num [Real.arccos_one]
